import Mathlib

/-!
Shallow embedding of the contaminant-screening scripts.

The repository contains two variants of the same pipeline:

* `V1` embeds `file-4e5.py`: `CONTAMINANT_CLASSES`, `find_contaminants`
  (inclusive window `|mz - target| <= tolerance`, one hit per qualifying
  peak), and the per-class hit counting performed by
  `plot_contaminants_by_class` via `pandas.value_counts`.
* `V2` embeds `file56.py`: `CONTAMINANT_CATEGORIES`, `find_contaminants`
  (strict window `|mz - target| < tolerance`, at most one hit per
  spectrum/target pair, recording the target m/z and the first matching
  peak's intensity into a per-category dict), and
  `generate_contaminant_summary`.

Floating-point m/z and intensity values are modelled as rationals (ℚ);
numpy's parallel `mz`/`intensity` arrays are modelled as two lists, and a
lookup `intensity_array[idx]` as `List.getD idx 0` (the scripts only index
positions produced by `np.where` over the m/z array, so for well-formed
spectra the default is never used).  A Python dict (insertion ordered,
unique keys) is modelled as an association list.
-/

/-- Peak lists of one spectrum, as returned by `spec.get_peaks()`:
parallel m/z and intensity arrays. -/
structure Spectrum where
  mzs : List ℚ
  intensities : List ℚ
  deriving DecidableEq

/-- Pairs each element of a list with its index, starting at `start`;
models the manual `spec_index` counter of `file-4e5.py` and Python's
`enumerate` in `file56.py`. -/
def enumIdx {α : Type} (start : Nat) : List α → List (Nat × α)
  | [] => []
  | a :: as => (start, a) :: enumIdx (start + 1) as

/-- Reference table: category name to list of (target m/z, label), in
dict insertion order. -/
abbrev RefTable := List (String × List (ℚ × String))

/-- Index of the first element satisfying `p`, as `np.where(cond)[0][0]`
would return it (`none` when no element matches). -/
def firstMatchIdx (p : ℚ → Bool) : List ℚ → Option Nat
  | [] => none
  | m :: ms => if p m then some 0 else (firstMatchIdx p ms).map (· + 1)

/-- Insert into a list sorted descending by `key`, keeping earlier
elements first on ties. -/
def insertDescBy {α : Type} (key : α → Nat) (a : α) : List α → List α
  | [] => [a]
  | b :: bs => if key b < key a then a :: b :: bs else b :: insertDescBy key a bs

/-- Sort a list descending by `key`; models
`df.sort_values(col, ascending=False)` (the claims checked below do not
depend on the order of tied rows, which pandas leaves unspecified). -/
def sortDescBy {α : Type} (key : α → Nat) : List α → List α
  | [] => []
  | a :: as => insertDescBy key a (sortDescBy key as)

namespace V1

/-- One contaminant hit of `file-4e5.py` (`find_contaminants`, lines
76-82): the dict with keys Spectrum, Class, Contaminant, Observed m/z,
Intensity. -/
structure Hit where
  spectrum : Nat
  className : String
  contaminant : String
  observedMz : ℚ
  intensity : ℚ
  deriving DecidableEq

/-- The reference table of `file-4e5.py`, lines 35-56. -/
def CONTAMINANT_CLASSES : RefTable := [
  ("Polymers", [(391.2843, "PEG/PPG"), (429.0887, "Polysiloxane"),
    (445.1200, "Polyethylene glycol")]),
  ("Detergents", [(311.2843, "Triton X"), (522.3554, "Tween"),
    (271.1747, "SDS derivative")]),
  ("Plasticizers", [(391.2843, "Phthalate"), (447.3091, "DEHP"),
    (279.1596, "DBP")]),
  ("Others", [(371.1012, "Unknown contaminant"), (415.2662, "Solvent impurity"),
    (503.3376, "Calibration standard")])]

/-- Hits contributed by one (spectrum, class, target) triple:
`np.where(np.abs(mz_array - target_mz) <= tolerance)[0]` (line 74,
boundary inclusive) followed by the append loop over the indices. -/
def peakHits (specIdx : Nat) (spec : Spectrum) (cls : String) (target : ℚ)
    (desc : String) (tol : ℚ) : List Hit :=
  ((enumIdx 0 spec.mzs).filter (fun q => decide (|q.2 - target| ≤ tol))).map
    (fun q => ⟨specIdx, cls, desc, q.2, spec.intensities.getD q.1 0⟩)

/-- The matcher of `file-4e5.py`, lines 58-85: for each spectrum (with a
running index starting at 0), for each class, for each target, append one
hit per peak within the inclusive tolerance window. -/
def find_contaminants (spectra : List Spectrum) (table : RefTable) (tol : ℚ) :
    List Hit :=
  (enumIdx 0 spectra).flatMap (fun sp =>
    table.flatMap (fun ct =>
      ct.2.flatMap (fun td => peakHits sp.1 sp.2 ct.1 td.1 td.2 tol)))

/-- Per-class hit counting of `plot_contaminants_by_class`, lines 96-100:
`df['Class'].value_counts()` lists each distinct class with its count,
sorted by count descending (absent classes are not zero-filled). -/
def classCounts (hits : List Hit) : List (String × Nat) :=
  sortDescBy Prod.snd
    ((hits.map Hit.className).dedup.map
      (fun c => (c, (hits.map Hit.className).count c)))

end V1

namespace V2

/-- One contaminant hit of `file56.py` (`find_contaminants`, lines
136-141): the dict with keys spectrum_idx, mz, name, intensity.  Note the
`mz` field stores the reference target m/z (line 138), not the observed
peak m/z. -/
structure Hit where
  spectrum_idx : Nat
  mz : ℚ
  name : String
  intensity : ℚ
  deriving DecidableEq

/-- The reference table of `file56.py`, lines 240-256. -/
def CONTAMINANT_CATEGORIES : RefTable := [
  ("Polymers", [(391.2843, "PEG/PPG"), (429.0887, "Polysiloxane")]),
  ("Detergents", [(311.2843, "Triton X"), (522.3554, "Tween")]),
  ("Plasticizers", [(447.3091, "DEHP"), (279.1596, "DBP")]),
  ("Oxidation Products", [(201.1234, "Oxidized lipid"), (217.1345, "Oxidized peptide")]),
  ("Adducts", [(365.4567, "Sodium adduct"), (381.4678, "Potassium adduct")]),
  ("In-source Fragments", [(157.0890, "Fragment A"), (173.0999, "Fragment B")]),
  ("Solvent Peaks", [(89.0626, "Acetonitrile"), (59.0498, "Methanol")]),
  ("Calibration Standards", [(519.1230, "Cal Standard 1"), (533.1340, "Cal Standard 2")]),
  ("Background Noise", [(101.1010, "Background A"), (115.1111, "Background B")]),
  ("Salt Clusters", [(203.2020, "NaCl cluster"), (219.2121, "KCl cluster")]),
  ("Lipids", [(760.5850, "Phosphatidylcholine"), (786.6050, "Phosphatidylethanolamine")]),
  ("Peptides", [(500.3000, "Dipeptide"), (750.4500, "Tripeptide")]),
  ("Carbohydrates", [(365.1054, "Disaccharide"), (527.1789, "Trisaccharide")]),
  ("Metabolites", [(180.0634, "Glucose"), (198.0735, "Fructose")]),
  ("Environmental", [(256.1233, "Pesticide A"), (284.1455, "Pesticide B")])]

/-- Hits contributed by one (spectrum, target) pair in `file56.py`, lines
131-141: `matches = np.where(np.abs(mzs - mz) < tolerance)[0]` (strict
window); when nonempty, exactly one hit is appended, storing the target
m/z and the intensity of the first matching peak (`matches[0]`). -/
def entryHits (specIdx : Nat) (spec : Spectrum) (target : ℚ) (nm : String)
    (tol : ℚ) : List Hit :=
  match firstMatchIdx (fun m => decide (|m - target| < tol)) spec.mzs with
  | some j => [⟨specIdx, target, nm, spec.intensities.getD j 0⟩]
  | none => []

/-- Appending hits to the list stored under key `cat` of the hits dict
(`hits[category].append(...)`, modelled on an association list). -/
def addHits (acc : List (String × List Hit)) (cat : String) (hs : List Hit) :
    List (String × List Hit) :=
  acc.map (fun ch => if ch.1 = cat then (ch.1, ch.2 ++ hs) else ch)

/-- The matcher of `file56.py`, lines 114-143: initialise the hits dict
with one empty list per category (lines 118-120), then for each spectrum
(`enumerate`), category, and (target, name) pair, append at most one hit
to that category's list. -/
def find_contaminants (spectra : List Spectrum) (table : RefTable) (tol : ℚ) :
    List (String × List Hit) :=
  (enumIdx 0 spectra).foldl (fun acc sp =>
    table.foldl (fun acc2 ct =>
      ct.2.foldl (fun acc3 td => addHits acc3 ct.1 (entryHits sp.1 sp.2 td.1 td.2 tol))
        acc2) acc)
    (table.map (fun ct => (ct.1, [])))

/-- One row of the summary DataFrame of `generate_contaminant_summary`,
lines 150-153: Category plus the number of hits (column named Hits in the
source). -/
structure SummaryRow where
  category : String
  hitCount : Nat
  deriving DecidableEq

/-- The aggregator of `file56.py`, lines 145-159, on its non-error path:
one row per key of the hits dict with that category's hit count, sorted
by count descending.  This total version is faithful only for a nonempty
hits dict; on an empty dict the source raises instead of returning a
list — see `generate_contaminant_summary?` for the error-aware model. -/
def generate_contaminant_summary (hits : List (String × List Hit)) :
    List SummaryRow :=
  sortDescBy SummaryRow.hitCount (hits.map (fun ch => ⟨ch.1, ch.2.length⟩))

/-- Error-aware model of the aggregator of `file56.py`, lines 145-159.
When the hits dict is empty (which happens exactly when the reference
table was empty), the row list is empty, `pd.DataFrame([])` has no
columns, and `sort_values("Hits", ascending=False)` at line 157 raises
`KeyError: 'Hits'`; that error outcome is modelled as `none`.  On a
nonempty dict the DataFrame has its Category and Hits columns and the
sorted summary is returned. -/
def generate_contaminant_summary? (hits : List (String × List Hit)) :
    Option (List SummaryRow) :=
  match hits with
  | [] => none
  | _ => some (generate_contaminant_summary hits)

end V2

/-! Helper lemmas about the basic list combinators. -/

theorem mem_enumIdx {α : Type} {s : Nat} {l : List α} {q : Nat × α} :
    q ∈ enumIdx s l ↔ ∃ k, l.get? k = some q.2 ∧ q.1 = s + k := by
  induction l generalizing s with
  | nil => simp [enumIdx]
  | cons a as ih =>
    simp only [enumIdx, List.mem_cons, ih]
    constructor
    · rintro (rfl | ⟨k, hk, hs⟩)
      · exact ⟨0, by simp, by simp⟩
      · exact ⟨k + 1, by simpa using hk, by omega⟩
    · rintro ⟨k, hk, hs⟩
      cases k with
      | zero =>
        left
        simp only [List.get?_cons_zero, Option.some.injEq] at hk
        obtain ⟨q1, q2⟩ := q
        simp only [Prod.mk.injEq]
        exact ⟨by omega, hk.symm⟩
      | succ k =>
        right
        exact ⟨k, by simpa using hk, by omega⟩

theorem fst_lt_length_of_mem_enumIdx {α : Type} {l : List α} {q : Nat × α}
    (h : q ∈ enumIdx 0 l) : q.1 < l.length := by
  rcases mem_enumIdx.1 h with ⟨k, hk, hs⟩
  rcases List.get?_eq_some.1 hk with ⟨hlt, -⟩
  omega

theorem mem_enumIdx_of_get? {α : Type} {l : List α} {k : Nat} {a : α}
    (h : l.get? k = some a) : (k, a) ∈ enumIdx 0 l :=
  mem_enumIdx.2 ⟨k, h, (Nat.zero_add k).symm⟩

theorem firstMatchIdx_eq_some {p : ℚ → Bool} {l : List ℚ} {j : Nat}
    (h : firstMatchIdx p l = some j) :
    ∃ a, l.get? j = some a ∧ p a = true := by
  induction l generalizing j with
  | nil => simp [firstMatchIdx] at h
  | cons m ms ih =>
    by_cases hm : p m
    · simp [firstMatchIdx, hm] at h
      exact ⟨m, by simp [← h], hm⟩
    · simp [firstMatchIdx, hm] at h
      rcases h with ⟨j', hj', rfl⟩
      rcases ih hj' with ⟨a, ha, hpa⟩
      exact ⟨a, by simpa using ha, hpa⟩

theorem firstMatchIdx_min {p : ℚ → Bool} {l : List ℚ} {j : Nat}
    (h : firstMatchIdx p l = some j) :
    ∀ k, k < j → ∀ a, l.get? k = some a → p a = false := by
  induction l generalizing j with
  | nil => simp [firstMatchIdx] at h
  | cons m ms ih =>
    by_cases hm : p m
    · simp [firstMatchIdx, hm] at h
      intro k hk a ha
      omega
    · simp [firstMatchIdx, hm] at h
      rcases h with ⟨j', hj', rfl⟩
      intro k hk a ha
      cases k with
      | zero =>
        simp only [List.get?_cons_zero, Option.some.injEq] at ha
        simp [← ha, hm]
      | succ k => exact ih hj' k (by omega) a (by simpa using ha)

theorem firstMatchIdx_eq_none {p : ℚ → Bool} {l : List ℚ}
    (h : ∀ a ∈ l, p a = false) : firstMatchIdx p l = none := by
  induction l with
  | nil => rfl
  | cons m ms ih =>
    have hm := h m (by simp)
    simp [firstMatchIdx, hm]
    exact ih (fun a ha => h a (by simp [ha]))

theorem insertDescBy_perm {α : Type} (key : α → Nat) (a : α) (l : List α) :
    (insertDescBy key a l).Perm (a :: l) := by
  induction l with
  | nil => simp [insertDescBy]
  | cons b bs ih =>
    by_cases hb : key b < key a
    · simp [insertDescBy, hb]
    · simp only [insertDescBy, if_neg hb]
      exact (ih.cons b).trans (List.Perm.swap a b bs)

theorem sortDescBy_perm {α : Type} (key : α → Nat) (l : List α) :
    (sortDescBy key l).Perm l := by
  induction l with
  | nil => simp [sortDescBy]
  | cons a as ih =>
    exact (insertDescBy_perm key a (sortDescBy key as)).trans (ih.cons a)

/-! Characterisation of the `V1` matcher. -/

theorem V1.mem_find_contaminants_iff {spectra : List Spectrum} {table : RefTable}
    {tol : ℚ} {h : V1.Hit} :
    h ∈ V1.find_contaminants spectra table tol ↔
      ∃ sp ∈ enumIdx 0 spectra, ∃ ct ∈ table, ∃ td ∈ ct.2, ∃ q ∈ enumIdx 0 sp.2.mzs,
        |q.2 - td.1| ≤ tol ∧
          h = ⟨sp.1, ct.1, td.2, q.2, sp.2.intensities.getD q.1 0⟩ := by
  simp only [V1.find_contaminants, List.mem_flatMap, V1.peakHits, List.mem_map,
    List.mem_filter, decide_eq_true_eq]
  constructor
  · rintro ⟨sp, hsp, ct, hct, td, htd, q, ⟨hq, hle⟩, rfl⟩
    exact ⟨sp, hsp, ct, hct, td, htd, q, hq, hle, rfl⟩
  · rintro ⟨sp, hsp, ct, hct, td, htd, q, hq, hle, rfl⟩
    exact ⟨sp, hsp, ct, hct, td, htd, q, ⟨hq, hle⟩, rfl⟩

theorem V1.peakHits_singleton (i : Nat) (m ι T tol : ℚ) (cls d : String) :
    V1.peakHits i ⟨[m], [ι]⟩ cls T d tol =
      if |m - T| ≤ tol then [⟨i, cls, d, m, ι⟩] else [] := by
  by_cases hc : |m - T| ≤ tol <;> simp [V1.peakHits, enumIdx, hc]

/-! Characterisation of the `V2` matcher: the nested fold over the hits
dict is rewritten as a per-category comprehension. -/

/-- Hits that one spectrum contributes to the category `c` of the hits
dict: the entries of every table pair whose key is `c`, each contributing
`entryHits`. -/
def V2.catContrib (table : RefTable) (c : String) (sp : Nat × Spectrum) (tol : ℚ) :
    List V2.Hit :=
  (table.filter (fun ct => decide (ct.1 = c))).flatMap
    (fun ct => ct.2.flatMap (fun td => V2.entryHits sp.1 sp.2 td.1 td.2 tol))

theorem V2.addHits_nil (acc : List (String × List V2.Hit)) (cat : String) :
    V2.addHits acc cat [] = acc := by
  simp [V2.addHits]

theorem V2.addHits_append (acc : List (String × List V2.Hit)) (cat : String)
    (hs hs' : List V2.Hit) :
    V2.addHits acc cat (hs ++ hs') = V2.addHits (V2.addHits acc cat hs) cat hs' := by
  induction acc with
  | nil => rfl
  | cons ch acc ih =>
    by_cases h : ch.1 = cat
    · simp only [V2.addHits, List.map_cons, if_pos h, List.append_assoc] at ih ⊢
      exact congrArg _ ih
    · simp only [V2.addHits, List.map_cons, if_neg h] at ih ⊢
      exact congrArg _ ih

theorem V2.foldl_entries (i : Nat) (s : Spectrum) (tol : ℚ) (cat : String)
    (entries : List (ℚ × String)) (acc : List (String × List V2.Hit)) :
    entries.foldl (fun a td => V2.addHits a cat (V2.entryHits i s td.1 td.2 tol)) acc
      = V2.addHits acc cat
          (entries.flatMap (fun td => V2.entryHits i s td.1 td.2 tol)) := by
  induction entries generalizing acc with
  | nil => simp [V2.addHits_nil]
  | cons td rest ih =>
    simp only [List.foldl_cons, List.flatMap_cons, V2.addHits_append, ih]

theorem V2.foldl_table (sp : Nat × Spectrum) (tol : ℚ) (table : RefTable)
    (acc : List (String × List V2.Hit)) :
    table.foldl (fun a ct =>
        ct.2.foldl (fun a2 td => V2.addHits a2 ct.1 (V2.entryHits sp.1 sp.2 td.1 td.2 tol)) a)
      acc
      = acc.map (fun ch => (ch.1, ch.2 ++ V2.catContrib table ch.1 sp tol)) := by
  induction table generalizing acc with
  | nil => simp [V2.catContrib]
  | cons ct rest ih =>
    rw [List.foldl_cons, V2.foldl_entries, ih, V2.addHits, List.map_map]
    refine List.map_congr_left ?_
    intro ch _
    by_cases h : ct.1 = ch.1
    · simp [V2.catContrib, List.filter_cons, h, Function.comp]
    · simp [V2.catContrib, List.filter_cons, h, Ne.symm h, Function.comp]

theorem V2.foldl_spectra (table : RefTable) (tol : ℚ) (l : List (Nat × Spectrum))
    (acc : List (String × List V2.Hit)) :
    l.foldl (fun acc1 sp =>
        table.foldl (fun a ct =>
          ct.2.foldl (fun a2 td => V2.addHits a2 ct.1 (V2.entryHits sp.1 sp.2 td.1 td.2 tol)) a)
        acc1)
      acc
      = acc.map (fun ch =>
          (ch.1, ch.2 ++ l.flatMap (fun sp => V2.catContrib table ch.1 sp tol))) := by
  induction l generalizing acc with
  | nil => simp
  | cons sp rest ih =>
    rw [List.foldl_cons, V2.foldl_table, ih, List.map_map]
    refine List.map_congr_left ?_
    intro ch _
    simp [Function.comp]

theorem V2.find_contaminants_eq (spectra : List Spectrum) (table : RefTable) (tol : ℚ) :
    V2.find_contaminants spectra table tol
      = table.map (fun ct =>
          (ct.1, (enumIdx 0 spectra).flatMap (fun sp => V2.catContrib table ct.1 sp tol))) := by
  rw [V2.find_contaminants, V2.foldl_spectra, List.map_map]
  refine List.map_congr_left ?_
  intro ct _
  simp [Function.comp]

theorem V2.filter_key_eq_singleton {table : RefTable} {cat : String}
    {ts : List (ℚ × String)} (hnd : (table.map Prod.fst).Nodup)
    (hmem : (cat, ts) ∈ table) :
    table.filter (fun ct => decide (ct.1 = cat)) = [(cat, ts)] := by
  induction table with
  | nil => cases hmem
  | cons x rest ih =>
    simp only [List.map_cons, List.nodup_cons] at hnd
    rcases List.mem_cons.1 hmem with rfl | hm
    · rw [List.filter_cons, if_pos (by simp)]
      have hrest : rest.filter (fun ct => decide (ct.1 = cat)) = [] := by
        refine List.filter_eq_nil_iff.2 ?_
        intro y hy
        simp only [decide_eq_true_eq]
        intro he
        have hy1 : y.1 ∈ rest.map Prod.fst := List.mem_map_of_mem Prod.fst hy
        rw [he] at hy1
        exact hnd.1 hy1
      rw [hrest]
    · have hx : ¬x.1 = cat := by
        intro he
        have hm1 : cat ∈ rest.map Prod.fst := by
          simpa using List.mem_map_of_mem Prod.fst hm
        rw [he] at hnd
        exact hnd.1 hm1
      rw [List.filter_cons, if_neg (by simpa using hx)]
      exact ih hnd.2 hm

theorem V2.catContrib_eq_of_nodup {table : RefTable} {cat : String}
    {ts : List (ℚ × String)} (hnd : (table.map Prod.fst).Nodup)
    (hmem : (cat, ts) ∈ table) (sp : Nat × Spectrum) (tol : ℚ) :
    V2.catContrib table cat sp tol
      = ts.flatMap (fun td => V2.entryHits sp.1 sp.2 td.1 td.2 tol) := by
  rw [V2.catContrib, V2.filter_key_eq_singleton hnd hmem]
  simp

theorem V2.entryHits_length_le (i : Nat) (s : Spectrum) (T : ℚ) (nm : String)
    (tol : ℚ) : (V2.entryHits i s T nm tol).length ≤ 1 := by
  cases hf : firstMatchIdx (fun m => decide (|m - T| < tol)) s.mzs <;>
    simp [V2.entryHits, hf]

theorem V2.mem_entryHits {i : Nat} {s : Spectrum} {T : ℚ} {nm : String}
    {tol : ℚ} {h : V2.Hit} :
    h ∈ V2.entryHits i s T nm tol ↔
      ∃ j, firstMatchIdx (fun m => decide (|m - T| < tol)) s.mzs = some j ∧
        h = ⟨i, T, nm, s.intensities.getD j 0⟩ := by
  cases hf : firstMatchIdx (fun m => decide (|m - T| < tol)) s.mzs <;>
    simp [V2.entryHits, hf]

theorem V2.entryHits_eq_nil_of_neg {i : Nat} {s : Spectrum} {T : ℚ} {nm : String}
    {tol : ℚ} (hneg : tol < 0) : V2.entryHits i s T nm tol = [] := by
  have hnone : firstMatchIdx (fun m => decide (|m - T| < tol)) s.mzs = none := by
    refine firstMatchIdx_eq_none ?_
    intro a _
    simp only [decide_eq_false_iff_not]
    exact not_lt.2 (hneg.le.trans (abs_nonneg _))
  simp [V2.entryHits, hnone]

/-! Claim theorems. -/

/-- Claim C1 (amended).  The inclusive-boundary rule holds only for the
`file-4e5.py` matcher: on a one-peak spectrum and a one-entry table, `V1`
emits a Hit exactly when `|m - T| ≤ tolerance` (so a peak at exactly
`T ± tolerance` is included), while the `file56.py` matcher compares
strictly (`<`), so a peak at exactly `T ± tolerance` yields no hit
there. -/
theorem c1_boundary_inclusivity (m T ι tol : ℚ) (cls d : String) :
    V1.find_contaminants [⟨[m], [ι]⟩] [(cls, [(T, d)])] tol
        = (if |m - T| ≤ tol then [⟨0, cls, d, m, ι⟩] else [])
      ∧ V2.find_contaminants [⟨[m], [ι]⟩] [(cls, [(T, d)])] tol
        = (if |m - T| < tol then [(cls, [⟨0, T, d, ι⟩])] else [(cls, [])]) := by
  constructor
  · by_cases hc : |m - T| ≤ tol <;>
      simp [V1.find_contaminants, V1.peakHits, enumIdx, hc]
  · by_cases hc : |m - T| < tol <;>
      simp [V2.find_contaminants_eq, V2.catContrib, V2.entryHits, enumIdx,
        firstMatchIdx, hc]

/-- Claim C1 counterexample: the peak 1 lies at exactly
target + tolerance (target 0, tolerance 1), so by the claim it must yield
a Hit, but the `file56.py` matcher emits none (strict comparison). -/
theorem c1_counterexample :
    |(1 : ℚ) - 0| ≤ 1
      ∧ V2.find_contaminants [⟨[1], [5]⟩] [("C", [(0, "d")])] 1 = [("C", [])] := by
  constructor
  · simp
  · simp [V2.find_contaminants_eq, V2.catContrib, V2.entryHits, enumIdx,
      firstMatchIdx]

/-- Claim C2 (amended).  With two peaks both within tolerance of the same
target, the `file-4e5.py` matcher emits two separate Hits, one per
qualifying peak; the `file56.py` matcher emits exactly one hit for the
(spectrum, target) pair, built from the first qualifying peak. -/
theorem c2_two_peaks_same_target (m1 m2 ι1 ι2 T tol : ℚ) (cls d : String)
    (h1 : |m1 - T| ≤ tol) (h2 : |m2 - T| ≤ tol) :
    V1.find_contaminants [⟨[m1, m2], [ι1, ι2]⟩] [(cls, [(T, d)])] tol
        = [⟨0, cls, d, m1, ι1⟩, ⟨0, cls, d, m2, ι2⟩]
      ∧ (|m1 - T| < tol →
        V2.find_contaminants [⟨[m1, m2], [ι1, ι2]⟩] [(cls, [(T, d)])] tol
          = [(cls, [⟨0, T, d, ι1⟩])]) := by
  constructor
  · simp [V1.find_contaminants, V1.peakHits, enumIdx, h1, h2]
  · intro hs
    simp [V2.find_contaminants_eq, V2.catContrib, V2.entryHits, enumIdx,
      firstMatchIdx, hs]

/-- Claim C2 witness: peaks 1 and -1 against target 0 with tolerance 2. -/
theorem c2_two_peaks_same_target_witness :
    V1.find_contaminants [⟨[(1 : ℚ), -1], [5, 7]⟩] [("C", [(0, "d")])] 2
        = [⟨0, "C", "d", 1, 5⟩, ⟨0, "C", "d", -1, 7⟩]
      ∧ V2.find_contaminants [⟨[(1 : ℚ), -1], [5, 7]⟩] [("C", [(0, "d")])] 2
        = [("C", [⟨0, 0, "d", 5⟩])] := by
  have h := c2_two_peaks_same_target 1 (-1) 5 7 0 2 "C" "d"
    (by simp [one_le_two]) (by simp [one_le_two])
  exact ⟨h.1, h.2 (by simp [one_lt_two])⟩

/-- Claim C2 counterexample: peaks 1 and -1 are both within tolerance 2 of
target 0 (even strictly), yet the `file56.py` matcher emits a single hit
for the spectrum/target pair, not two. -/
theorem c2_counterexample :
    |(1 : ℚ) - 0| ≤ 2 ∧ |(-1 : ℚ) - 0| ≤ 2
      ∧ ((V2.find_contaminants [⟨[(1 : ℚ), -1], [5, 7]⟩] [("C", [(0, "d")])] 2).flatMap
          Prod.snd).length = 1
      ∧ ¬((V2.find_contaminants [⟨[(1 : ℚ), -1], [5, 7]⟩] [("C", [(0, "d")])] 2).flatMap
          Prod.snd).length = 2 := by
  refine ⟨by simp [one_le_two], by simp [one_le_two], ?_, ?_⟩ <;>
    simp [V2.find_contaminants_eq, V2.catContrib, V2.entryHits, enumIdx,
      firstMatchIdx, one_lt_two]

/-- Claim C4 (amended).  Neither variant validates its configuration: a
negative tolerance is not rejected, the matcher simply matches nothing
(`V1` returns the empty hit list, `V2` returns every category mapped to an
empty list), and an empty reference table likewise yields an empty result
rather than an error.  No ConfigError (or any other failure path) exists
in either script. -/
theorem c4_no_config_error (spectra : List Spectrum) (table : RefTable) (tol : ℚ) :
    (tol < 0 →
        V1.find_contaminants spectra table tol = []
          ∧ V2.find_contaminants spectra table tol = table.map (fun ct => (ct.1, [])))
      ∧ V1.find_contaminants spectra [] tol = []
      ∧ V2.find_contaminants spectra [] tol = [] := by
  refine ⟨fun hneg => ⟨?_, ?_⟩, ?_, ?_⟩
  · rw [List.eq_nil_iff_forall_not_mem]
    intro h hmem
    rcases V1.mem_find_contaminants_iff.1 hmem with ⟨sp, -, ct, -, td, -, q, -, hle, -⟩
    exact (lt_of_lt_of_le hneg (abs_nonneg _)).not_le hle
  · rw [V2.find_contaminants_eq]
    refine List.map_congr_left ?_
    intro ct _
    simp [V2.catContrib, V2.entryHits_eq_nil_of_neg hneg, List.flatMap_eq_nil_iff]
  · simp [V1.find_contaminants]
  · simp [V2.find_contaminants_eq]

/-- Claim C4 witness: negative tolerance -1 on a concrete nonempty
spectrum list. -/
theorem c4_no_config_error_witness :
    V1.find_contaminants [⟨[0], [1]⟩] [("C", [(0, "d")])] (-1) = []
      ∧ V2.find_contaminants [⟨[0], [1]⟩] [("C", [(0, "d")])] (-1)
        = [("C", [])] := by
  have h := (c4_no_config_error [⟨[0], [1]⟩] [("C", [(0, "d")])] (-1)).1
    (neg_lt_zero.2 one_pos)
  exact ⟨h.1, by rw [h.2]; rfl⟩

/-- Claim C4 counterexample: with tolerance -1 (and, separately, with an
empty reference table), both matchers run to completion and return normal
empty results; no error of any kind is raised before or during
scanning. -/
theorem c4_counterexample :
    V1.find_contaminants [⟨[0], [1]⟩] [("C", [(0, "d")])] (-1) = []
      ∧ V2.find_contaminants [⟨[0], [1]⟩] [("C", [(0, "d")])] (-1) = [("C", [])]
      ∧ V1.find_contaminants [⟨[0], [1]⟩] [] 1 = []
      ∧ V2.find_contaminants [⟨[0], [1]⟩] [] 1 = [] := by
  refine ⟨?_, ?_, ?_, ?_⟩
  · rw [List.eq_nil_iff_forall_not_mem]
    intro h hmem
    rcases V1.mem_find_contaminants_iff.1 hmem with ⟨sp, -, ct, -, td, -, q, -, hle, -⟩
    exact ((neg_lt_zero.2 one_pos).trans_le (abs_nonneg _)).not_le hle
  · rw [V2.find_contaminants_eq]
    simp [V2.catContrib, V2.entryHits_eq_nil_of_neg (neg_lt_zero.2 one_pos),
      List.flatMap_eq_nil_iff, enumIdx]
  · simp [V1.find_contaminants]
  · simp [V2.find_contaminants_eq]

theorem length_flatMap_singleton_filter {α β : Type} (l : List β) (f : β → List α)
    (p : β → Bool) (hf : ∀ b ∈ l, (f b).length = if p b then 1 else 0) :
    (l.flatMap f).length = (l.filter p).length := by
  induction l with
  | nil => simp
  | cons b rest ih =>
    have hb := hf b (by simp)
    have ih' := ih (fun x hx => hf x (by simp [hx]))
    by_cases hp : p b
    · simp [List.flatMap_cons, List.filter_cons, hp, hb, ih', Nat.add_comm]
    · simp [List.flatMap_cons, List.filter_cons, hp, hb, ih']

theorem length_flatMap_congr {α β γ : Type} (l : List β) (F : β → List α)
    (s : β → List γ) (p : γ → Bool)
    (hf : ∀ b ∈ l, (F b).length = ((s b).filter p).length) :
    (l.flatMap F).length = ((l.flatMap s).filter p).length := by
  induction l with
  | nil => simp
  | cons b rest ih =>
    have hb := hf b (by simp)
    have ih' := ih (fun x hx => hf x (by simp [hx]))
    simp [List.flatMap_cons, List.filter_append, hb, ih']

/-- Claim C3 (confirmed).  Every hit either matcher emits records a valid
spectrum index (below the number of spectra) and stems from a reference
entry within tolerance: a `V1` hit carries its class, label and an
observed m/z within the inclusive window of the matched target; a `V2`
hit carries a target m/z (`mz` field) and label from the table, with some
observed peak of its spectrum within tolerance of it. -/
theorem c3_hit_invariants :
    (∀ (spectra : List Spectrum) (table : RefTable) (tol : ℚ) (h : V1.Hit),
      h ∈ V1.find_contaminants spectra table tol →
        h.spectrum < spectra.length
          ∧ ∃ ct ∈ table, ∃ td ∈ ct.2,
              h.className = ct.1 ∧ h.contaminant = td.2 ∧ |h.observedMz - td.1| ≤ tol)
      ∧ (∀ (spectra : List Spectrum) (table : RefTable) (tol : ℚ) (cat : String)
          (hs : List V2.Hit) (h : V2.Hit),
        (cat, hs) ∈ V2.find_contaminants spectra table tol → h ∈ hs →
          h.spectrum_idx < spectra.length
            ∧ ∃ ct ∈ table, ∃ td ∈ ct.2,
                h.mz = td.1 ∧ h.name = td.2
                  ∧ ∃ sp ∈ enumIdx 0 spectra, h.spectrum_idx = sp.1
                      ∧ ∃ m ∈ sp.2.mzs, |m - h.mz| ≤ tol) := by
  constructor
  · intro spectra table tol h hmem
    rcases V1.mem_find_contaminants_iff.1 hmem with
      ⟨sp, hsp, ct, hct, td, htd, q, hq, hle, rfl⟩
    exact ⟨fst_lt_length_of_mem_enumIdx hsp, ct, hct, td, htd, rfl, rfl, hle⟩
  · intro spectra table tol cat hs h hpair hmem
    rw [V2.find_contaminants_eq] at hpair
    rcases List.mem_map.1 hpair with ⟨ct0, hct0, heq⟩
    have hcat : ct0.1 = cat := congrArg Prod.fst heq
    have hhs : hs = (enumIdx 0 spectra).flatMap
        (fun sp => V2.catContrib table ct0.1 sp tol) := (congrArg Prod.snd heq).symm
    rw [hhs] at hmem
    rcases List.mem_flatMap.1 hmem with ⟨sp, hsp, hcc⟩
    rcases List.mem_flatMap.1 hcc with ⟨ct2, hct2, hentry⟩
    rcases List.mem_flatMap.1 hentry with ⟨td, htd, hent⟩
    rcases V2.mem_entryHits.1 hent with ⟨j, hj, rfl⟩
    rcases firstMatchIdx_eq_some hj with ⟨a, ha, hpa⟩
    have hlt : |a - td.1| < tol := of_decide_eq_true hpa
    refine ⟨fst_lt_length_of_mem_enumIdx hsp, ct2, List.mem_of_mem_filter hct2,
      td, htd, rfl, rfl, sp, hsp, rfl, a, List.get?_mem ha, hlt.le⟩

/-- Claim C5 (amended).  For an empty spectra list the `file-4e5.py`
matcher returns an empty hit list, and the `file56.py` matcher returns
its reference table's categories each mapped to an empty hit list; the
aggregator then returns one zero-count summary row per category.  It
never returns an empty summary list: for an empty reference table the
hits dict is empty and the aggregator instead hits its error path
(`KeyError: 'Hits'` from sorting the column-less empty DataFrame,
modelled by `generate_contaminant_summary?` returning `none`). -/
theorem c5_empty_spectra (table : RefTable) (tol : ℚ) :
    V1.find_contaminants [] table tol = []
      ∧ V2.find_contaminants [] table tol = table.map (fun ct => (ct.1, []))
      ∧ (V2.generate_contaminant_summary (V2.find_contaminants [] table tol)).length
          = table.length
      ∧ (∀ row ∈ V2.generate_contaminant_summary (V2.find_contaminants [] table tol),
          row.hitCount = 0)
      ∧ (table = [] →
          V2.generate_contaminant_summary? (V2.find_contaminants [] table tol)
            = none) := by
  have hfind : V2.find_contaminants [] table tol = table.map (fun ct => (ct.1, [])) := by
    rw [V2.find_contaminants_eq]
    simp [enumIdx]
  have hrows : (V2.find_contaminants [] table tol).map
      (fun ch => (⟨ch.1, ch.2.length⟩ : V2.SummaryRow))
        = table.map (fun ct => ⟨ct.1, 0⟩) := by
    rw [hfind, List.map_map]
    rfl
  have hperm := sortDescBy_perm V2.SummaryRow.hitCount
    ((V2.find_contaminants [] table tol).map (fun ch => (⟨ch.1, ch.2.length⟩ : V2.SummaryRow)))
  refine ⟨by simp [V1.find_contaminants, enumIdx], hfind, ?_, ?_, ?_⟩
  · rw [V2.generate_contaminant_summary, hperm.length_eq, hrows, List.length_map]
  · intro row hrow
    rw [V2.generate_contaminant_summary] at hrow
    have : row ∈ table.map (fun ct => (⟨ct.1, 0⟩ : V2.SummaryRow)) := by
      rw [← hrows]
      exact hperm.mem_iff.1 hrow
    rcases List.mem_map.1 this with ⟨ct, -, rfl⟩
    rfl
  · rintro rfl
    rfl

/-- Claim C5 witness: a one-category table with empty spectra yields a
single zero-count row, and the empty table sends the aggregator into its
error path (`none`). -/
theorem c5_empty_spectra_witness :
    ((⟨"C", 0⟩ : V2.SummaryRow)
        ∈ V2.generate_contaminant_summary
            (V2.find_contaminants [] [("C", [(0, "d")])] 1)
      ∧ (⟨"C", 0⟩ : V2.SummaryRow).hitCount = 0)
      ∧ V2.generate_contaminant_summary? (V2.find_contaminants [] ([] : RefTable) 1)
        = none :=
  ⟨⟨by decide, (c5_empty_spectra [("C", [(0, "d")])] 1).2.2.2.1 ⟨"C", 0⟩ (by decide)⟩,
    (c5_empty_spectra [] 1).2.2.2.2 rfl⟩

/-- Claim C5 counterexample: with empty spectra and a nonempty reference
table, the `file56.py` aggregator returns one zero-count row per category,
not the empty summary list the claim requires. -/
theorem c5_counterexample :
    V2.generate_contaminant_summary (V2.find_contaminants [] [("C", [(0, "d")])] 1)
        = [⟨"C", 0⟩]
      ∧ ¬V2.generate_contaminant_summary (V2.find_contaminants [] [("C", [(0, "d")])] 1)
        = [] := by
  constructor <;> decide

/-- Claim C6 (confirmed).  Summing the per-category hit counts recovers
the total number of hits: for the `file-4e5.py` per-class counts (which do
not zero-fill absent classes) the counts sum to the length of the hit
list, and for the `file56.py` summary the counts sum to the total number
of hits stored in the dict. -/
theorem c6_hitcount_sum (hits : List V1.Hit) (hits2 : List (String × List V2.Hit)) :
    ((V1.classCounts hits).map Prod.snd).sum = hits.length
      ∧ ((V2.generate_contaminant_summary hits2).map V2.SummaryRow.hitCount).sum
          = (hits2.flatMap Prod.snd).length := by
  constructor
  · have hperm := sortDescBy_perm (Prod.snd (α := String))
      ((hits.map V1.Hit.className).dedup.map
        (fun c => (c, (hits.map V1.Hit.className).count c)))
    rw [V1.classCounts, (hperm.map Prod.snd).sum_eq, List.map_map]
    have : (Prod.snd ∘ fun c => (c, (hits.map V1.Hit.className).count c))
        = fun c => (hits.map V1.Hit.className).count c := rfl
    rw [this, List.sum_map_count_dedup_eq_length, List.length_map]
  · have hperm := sortDescBy_perm V2.SummaryRow.hitCount
      (hits2.map (fun ch => (⟨ch.1, ch.2.length⟩ : V2.SummaryRow)))
    rw [V2.generate_contaminant_summary,
      (hperm.map V2.SummaryRow.hitCount).sum_eq, List.map_map,
      List.length_flatMap]
    rfl

/-- Claim C7 (confirmed, for the `file-4e5.py` matcher the claim cites).
A peak within tolerance of several reference entries produces one Hit per
matching entry: whenever the same peak lies within tolerance of two
entries (in the same or different classes), both hits are in the output;
and on a one-peak spectrum the number of emitted hits equals the number
of reference entries whose window contains the peak. -/
theorem c7_overlapping_windows :
    (∀ (spectra : List Spectrum) (table : RefTable) (tol : ℚ) (sp : Nat × Spectrum)
        (k : Nat) (m : ℚ) (cA : String) (tsA : List (ℚ × String)) (TA : ℚ) (dA : String)
        (cB : String) (tsB : List (ℚ × String)) (TB : ℚ) (dB : String),
      sp ∈ enumIdx 0 spectra → sp.2.mzs.get? k = some m →
      (cA, tsA) ∈ table → (TA, dA) ∈ tsA → |m - TA| ≤ tol →
      (cB, tsB) ∈ table → (TB, dB) ∈ tsB → |m - TB| ≤ tol →
        (⟨sp.1, cA, dA, m, sp.2.intensities.getD k 0⟩ : V1.Hit)
            ∈ V1.find_contaminants spectra table tol
          ∧ (⟨sp.1, cB, dB, m, sp.2.intensities.getD k 0⟩ : V1.Hit)
            ∈ V1.find_contaminants spectra table tol)
      ∧ (∀ (m ι tol : ℚ) (table : RefTable),
        (V1.find_contaminants [⟨[m], [ι]⟩] table tol).length
          = ((table.flatMap Prod.snd).filter
              (fun td => decide (|m - td.1| ≤ tol))).length) := by
  constructor
  · intro spectra table tol sp k m cA tsA TA dA cB tsB TB dB
    intro hsp hkm hctA htdA hA hctB htdB hB
    constructor
    · exact V1.mem_find_contaminants_iff.2
        ⟨sp, hsp, (cA, tsA), hctA, (TA, dA), htdA, (k, m),
          mem_enumIdx_of_get? hkm, hA, rfl⟩
    · exact V1.mem_find_contaminants_iff.2
        ⟨sp, hsp, (cB, tsB), hctB, (TB, dB), htdB, (k, m),
          mem_enumIdx_of_get? hkm, hB, rfl⟩
  · intro m ι tol table
    have hstep : V1.find_contaminants [⟨[m], [ι]⟩] table tol
        = table.flatMap (fun ct =>
            ct.2.flatMap (fun td => V1.peakHits 0 ⟨[m], [ι]⟩ ct.1 td.1 td.2 tol)) := by
      simp [V1.find_contaminants, enumIdx]
    rw [hstep]
    refine length_flatMap_congr table _ Prod.snd _ ?_
    intro ct _
    refine length_flatMap_singleton_filter ct.2 _ _ ?_
    intro td _
    rw [V1.peakHits_singleton]
    by_cases h : |m - td.1| ≤ tol <;> simp [h]

/-- Claim C7 witness: one peak at 0 matching the single entries of two
different categories with tolerance 0; both hits are emitted and the hit
count equals the number of matching entries, 2. -/
theorem c7_overlapping_windows_witness :
    ((⟨0, "A", "x", 0, 7⟩ : V1.Hit)
        ∈ V1.find_contaminants [⟨[0], [7]⟩] [("A", [(0, "x")]), ("B", [(0, "y")])] 0
      ∧ (⟨0, "B", "y", 0, 7⟩ : V1.Hit)
        ∈ V1.find_contaminants [⟨[0], [7]⟩] [("A", [(0, "x")]), ("B", [(0, "y")])] 0) :=
  c7_overlapping_windows.1 [⟨[0], [7]⟩] [("A", [(0, "x")]), ("B", [(0, "y")])] 0
    (0, ⟨[0], [7]⟩) 0 0 "A" [(0, "x")] 0 "x" "B" [(0, "y")] 0 "y"
    (by simp [enumIdx]) rfl (by simp) (by simp) (by simp)
    (by simp) (by simp) (by simp)

/-- Claim C8 (confirmed).  Matcher and aggregator are embedded as total
functions of their inputs (the scripts read no external state in these
functions and mutate only their own fresh accumulators): two runs on
identical spectra, reference table and tolerance produce identical
ordered output, for both variants and for the composed
matcher-plus-aggregator pipelines. -/
theorem c8_deterministic (s1 s2 : List Spectrum) (t1 t2 : RefTable)
    (tol1 tol2 : ℚ) (hs : s1 = s2) (ht : t1 = t2) (htol : tol1 = tol2) :
    V1.find_contaminants s1 t1 tol1 = V1.find_contaminants s2 t2 tol2
      ∧ V1.classCounts (V1.find_contaminants s1 t1 tol1)
          = V1.classCounts (V1.find_contaminants s2 t2 tol2)
      ∧ V2.find_contaminants s1 t1 tol1 = V2.find_contaminants s2 t2 tol2
      ∧ V2.generate_contaminant_summary (V2.find_contaminants s1 t1 tol1)
          = V2.generate_contaminant_summary (V2.find_contaminants s2 t2 tol2) := by
  subst hs
  subst ht
  subst htol
  exact ⟨rfl, rfl, rfl, rfl⟩

/-- Claim C8 witness: the double-run equalities at a concrete input. -/
theorem c8_deterministic_witness :
    V1.find_contaminants [⟨[0], [1]⟩] [("C", [(0, "d")])] 1
        = V1.find_contaminants [⟨[0], [1]⟩] [("C", [(0, "d")])] 1
      ∧ V1.classCounts (V1.find_contaminants [⟨[0], [1]⟩] [("C", [(0, "d")])] 1)
          = V1.classCounts (V1.find_contaminants [⟨[0], [1]⟩] [("C", [(0, "d")])] 1)
      ∧ V2.find_contaminants [⟨[0], [1]⟩] [("C", [(0, "d")])] 1
          = V2.find_contaminants [⟨[0], [1]⟩] [("C", [(0, "d")])] 1
      ∧ V2.generate_contaminant_summary
            (V2.find_contaminants [⟨[0], [1]⟩] [("C", [(0, "d")])] 1)
          = V2.generate_contaminant_summary
            (V2.find_contaminants [⟨[0], [1]⟩] [("C", [(0, "d")])] 1) :=
  c8_deterministic [⟨[0], [1]⟩] [⟨[0], [1]⟩] [("C", [(0, "d")])] [("C", [(0, "d")])]
    1 1 rfl rfl rfl

/-- Claim C9 (confirmed).  In the `file56.py` variant, the hit list stored
under a category key collects, per spectrum and per reference entry of
that category, the `entryHits` of that entry; each such contribution has
at most one hit; and every emitted hit stores the entry's target m/z in
its `mz` field and its name, while the intensity is taken from the first
peak in array order whose m/z is strictly within tolerance of the target
(no peak before that index qualifies). -/
theorem c9_v2_hit_shape (spectra : List Spectrum) (table : RefTable) (tol : ℚ)
    (cat : String) (ts : List (ℚ × String))
    (hnd : (table.map Prod.fst).Nodup) (hmem : (cat, ts) ∈ table) :
    ((cat, (enumIdx 0 spectra).flatMap
        (fun sp => ts.flatMap (fun td => V2.entryHits sp.1 sp.2 td.1 td.2 tol)))
      ∈ V2.find_contaminants spectra table tol)
    ∧ (∀ (i : Nat) (s : Spectrum) (T : ℚ) (nm : String),
        (V2.entryHits i s T nm tol).length ≤ 1)
    ∧ (∀ (i : Nat) (s : Spectrum) (T : ℚ) (nm : String) (h : V2.Hit),
        h ∈ V2.entryHits i s T nm tol →
          h.mz = T ∧ h.name = nm
            ∧ ∃ j, firstMatchIdx (fun x => decide (|x - T| < tol)) s.mzs = some j
                ∧ h.intensity = s.intensities.getD j 0
                ∧ (∃ m, s.mzs.get? j = some m ∧ |m - T| < tol)
                ∧ ∀ k, k < j → ∀ m, s.mzs.get? k = some m → ¬|m - T| < tol) := by
  refine ⟨?_, ?_, ?_⟩
  · rw [V2.find_contaminants_eq]
    have h2 : (fun sp => V2.catContrib table cat sp tol)
        = fun sp => ts.flatMap (fun td => V2.entryHits sp.1 sp.2 td.1 td.2 tol) :=
      funext fun sp => V2.catContrib_eq_of_nodup hnd hmem sp tol
    have h1 : ((cat, ts).1, (enumIdx 0 spectra).flatMap
        (fun sp => V2.catContrib table (cat, ts).1 sp tol))
          ∈ table.map (fun ct => (ct.1, (enumIdx 0 spectra).flatMap
              (fun sp => V2.catContrib table ct.1 sp tol))) :=
      List.mem_map_of_mem _ hmem
    simpa [h2] using h1
  · intro i s T nm
    exact V2.entryHits_length_le i s T nm tol
  · intro i s T nm h hment
    rcases V2.mem_entryHits.1 hment with ⟨j, hj, rfl⟩
    rcases firstMatchIdx_eq_some hj with ⟨a, ha, hpa⟩
    refine ⟨rfl, rfl, j, hj, rfl, ⟨a, ha, of_decide_eq_true hpa⟩, ?_⟩
    intro k hk m hm
    exact of_decide_eq_false (firstMatchIdx_min hj k hk m hm)

/-- Claim C9 witness: spectrum with two peaks at the target; the emitted
hit stores the target m/z 0 and the intensity 5 of the first peak. -/
theorem c9_v2_hit_shape_witness :
    ("C", [(⟨0, 0, "d", 5⟩ : V2.Hit)])
        ∈ V2.find_contaminants [⟨[0, 0], [5, 7]⟩] [("C", [(0, "d")])] 1 := by
  have h := (c9_v2_hit_shape [⟨[0, 0], [5, 7]⟩] [("C", [(0, "d")])] 1 "C" [(0, "d")]
    (by simp) (by simp)).1
  simpa [enumIdx, V2.entryHits, firstMatchIdx] using h

/-- Claim C10 (confirmed).  The `file56.py` matcher's result has exactly
the reference table's category keys, in table order, whatever the
spectra; consequently the summary has one row per category (zero-hit
categories included), its row count equals the table's category count and
its category column is a permutation of the table's keys. -/
theorem c10_zero_filled_categories (spectra : List Spectrum) (table : RefTable)
    (tol : ℚ) :
    (V2.find_contaminants spectra table tol).map Prod.fst = table.map Prod.fst
      ∧ (V2.generate_contaminant_summary
          (V2.find_contaminants spectra table tol)).length = table.length
      ∧ ((V2.generate_contaminant_summary
          (V2.find_contaminants spectra table tol)).map
            V2.SummaryRow.category).Perm (table.map Prod.fst) := by
  have hkeys : (V2.find_contaminants spectra table tol).map Prod.fst
      = table.map Prod.fst := by
    rw [V2.find_contaminants_eq, List.map_map]
    rfl
  have hlen : (V2.find_contaminants spectra table tol).length = table.length := by
    rw [V2.find_contaminants_eq, List.length_map]
  have hperm := sortDescBy_perm V2.SummaryRow.hitCount
    ((V2.find_contaminants spectra table tol).map
      (fun ch => (⟨ch.1, ch.2.length⟩ : V2.SummaryRow)))
  refine ⟨hkeys, ?_, ?_⟩
  · rw [V2.generate_contaminant_summary, hperm.length_eq, List.length_map, hlen]
  · rw [V2.generate_contaminant_summary]
    refine (hperm.map V2.SummaryRow.category).trans ?_
    rw [List.map_map]
    have hcomp : (V2.SummaryRow.category ∘
        fun ch : String × List V2.Hit => (⟨ch.1, ch.2.length⟩ : V2.SummaryRow))
          = Prod.fst := rfl
    rw [hcomp, hkeys]

/-- Claim C3 witness: the single hit of a one-peak run satisfies the
invariants at tolerance 0. -/
theorem c3_hit_invariants_witness :
    (⟨0, "C", "d", 0, 7⟩ : V1.Hit).spectrum < ([⟨[0], [7]⟩] : List Spectrum).length
      ∧ ∃ ct ∈ [("C", [(0, "d")])], ∃ td ∈ ct.2,
          (⟨0, "C", "d", 0, 7⟩ : V1.Hit).className = ct.1
            ∧ (⟨0, "C", "d", 0, 7⟩ : V1.Hit).contaminant = td.2
            ∧ |(⟨0, "C", "d", 0, 7⟩ : V1.Hit).observedMz - td.1| ≤ 0 :=
  c3_hit_invariants.1 [⟨[0], [7]⟩] [("C", [(0, "d")])] 0 ⟨0, "C", "d", 0, 7⟩
    (by simp [V1.find_contaminants, V1.peakHits, enumIdx])

